import Mathlib

/-!
Verification of the rustbus `client_conn.rs` core (`Conn` transport and
`RpcConn` dispatcher) against its natural-language specification.

The transport layer (`Conn`) is embedded at byte level: the kernel side of the
Unix stream socket is modelled as a queue of delivery batches, each carrying a
run of stream bytes together with the ancillary control messages (SCM_RIGHTS
descriptor lists) the kernel would hand out with the `recvmsg` that first
touches that run.  `recvmsg` collects those control messages; a plain `read`
(used by `UnixStream::read_exact`) consumes the bytes and discards the
ancillary payload, as the kernel does when no control buffer is supplied.

Machine integers are modelled as `Nat` with explicit `% 2^32` exactly where
the Rust code performs `u32` arithmetic.  Fallible Rust code returns
`Except`; a Rust panic (an `unwrap` failure) is modelled as the `none` case
of an outer `Option` layer.

The marshaller/unmarshaller, authentication and standard-message modules are
external collaborators of this file's source (`src/client_conn.rs`); where
their behaviour is needed it is modelled from the spec and marked as such.
-/

set_option autoImplicit false

namespace Rustbus

/-- Byte order of the wire encoding, from `message::ByteOrder`. -/
inductive ByteOrder where
  | LittleEndian
  | BigEndian
  deriving DecidableEq

/-- Message types, from `message::MessageType`. -/
inductive MessageType where
  | Signal
  | Error
  | Call
  | Reply
  | Invalid
  deriving DecidableEq

/-- The attributes of `message::Message` that this spec is about: type, serial,
response serial, attached descriptors, and an opaque body. -/
structure Message where
  typ : MessageType
  serial : Option Nat
  response_serial : Option Nat
  raw_fds : List Nat
  body : List Nat
  deriving DecidableEq

/-- Unmarshalling errors surfaced by the external `wire::unmarshal` module;
only the variants `client_conn.rs` inspects or produces are distinguished. -/
inductive UnmarshalError where
  | NotEnoughBytes
  | NotAllBytesUsed
  | InvalidByteOrder
  | Other
  deriving DecidableEq

/-- The error enumeration of `client_conn::Error` (lines 211-225 of the
source), kept variant-for-variant. -/
inductive Error where
  | IoError
  | NixError (errno : Nat)
  | UnmarshalError (e : UnmarshalError)
  | MarshalError
  | AuthFailed
  | UnixFdNegotiationFailed
  | NameTaken
  | AddressTypeNotSupported (s : String)
  | PathDoesNotExist (s : String)
  | NoAdressFound
  | UnexpectedTypeReceived
  | TimedOut
  deriving DecidableEq

/-- An ancillary control message as returned by `recvmsg`
(`nix::sys::socket::ControlMessageOwned`): an SCM_RIGHTS descriptor list, or
any other kind (which the source logs and ignores). -/
inductive CMsg where
  | ScmRights (fds : List Nat)
  | Other
  deriving DecidableEq

/-- One kernel delivery unit on the receiving stream socket: a run of stream
bytes plus the control messages delivered together with its first byte.  A
`recvmsg` call returns bytes from at most one batch (the kernel does not merge
data across an ancillary boundary) and hands over the batch's control
messages with the first call that touches it. -/
structure Batch where
  bytes : List Nat
  cmsgs : List CMsg
  deriving DecidableEq

/-- Outcome of one `sendmsg` syscall, supplied as an oracle: the kernel either
accepts the whole buffer or fails with an errno.  (Short writes would trip the
`assert_eq!` in `send_message`; they are outside the claims considered here.) -/
inductive SendOutcome where
  | success
  | fail (errno : Nat)
  deriving DecidableEq

/-- State of the connected Unix stream socket, including both kernel timeout
knobs: `readTimeout` (SO_RCVTIMEO, set by `set_read_timeout`, bounds blocking
receives) and `sendTimeout` (SO_SNDTIMEO, which is what would bound a blocking
`sendmsg`; the source never writes it).  `sendOutcomes` is the oracle of
results for successive `sendmsg` calls (exhausted list: sends succeed). -/
structure SockState where
  stream : List Batch
  readTimeout : Option Nat
  sendTimeout : Option Nat
  sendOutcomes : List SendOutcome
  deriving DecidableEq

/-- The `Conn` transport state (source lines 197-208): socket, wire byte
order, receive and send buffers, serial counter.  `socket_path` is purely
diagnostic and omitted. -/
structure ConnState where
  sock : SockState
  byteorder : ByteOrder
  msg_buf_in : List Nat
  msg_buf_out : List Nat
  serial_counter : Nat
  deriving DecidableEq

/-- The u32 modulus: serial counter and wire length fields are 32-bit. -/
def U32 : Nat := 4294967296

/-- The errno for EAGAIN / EWOULDBLOCK, which `refill_buffer` maps to
`TimedOut`. -/
def EAGAIN : Nat := 11

/-- Modelled from the spec: the fixed D-Bus message prefix length
`unmarshal::HEADER_LEN` (16), stated as HEADER_LEN (16) in the framing
algorithm. -/
def HEADER_LEN : Nat := 16

/-- One `recvmsg` on the stream: reads at most `want` bytes out of the head
batch and collects that batch's control messages; bytes left over in the
batch stay queued with no further ancillary data.  An empty stream means no
data arrives within the wait, surfaced as EAGAIN. -/
def recvmsgM (want : Nat) (stream : List Batch) :
    Except Nat ((List Nat × List CMsg) × List Batch) :=
  if want = 0 then .ok (([], []), stream)
  else
    match stream with
    | [] => .error EAGAIN
    | b :: rest =>
      let n := min want b.bytes.length
      let taken := b.bytes.take n
      let remaining := b.bytes.drop n
      .ok ((taken, b.cmsgs), if remaining.isEmpty then rest else ⟨remaining, []⟩ :: rest)

/-- A plain `read_exact` of `n` bytes from the stream (used by the source for
the 4 header-fields-length bytes).  Without a control buffer the kernel
discards the ancillary payload of every batch the read consumes from: the
`cmsgs` of touched batches do not appear in the result.  Starvation is
surfaced as an I/O error. -/
def read_exact (n : Nat) (stream : List Batch) :
    Except Error (List Nat × List Batch) :=
  match stream with
  | [] => if n = 0 then .ok ([], []) else .error .IoError
  | b :: rest =>
    if n ≤ b.bytes.length then
      if n = b.bytes.length then .ok (b.bytes, rest)
      else .ok (b.bytes.take n, ⟨b.bytes.drop n, []⟩ :: rest)
    else
      match read_exact (n - b.bytes.length) rest with
      | .ok (bs, st) => .ok (b.bytes ++ bs, st)
      | .error e => .error e

/-- The external `util::parse_u32`: decode 4 bytes in the given byte order,
returning (bytes used, value).  Modelled from the spec (Parse as unsigned
32-bit in the header's byte order). -/
def parse_u32 (bytes : List Nat) (bo : ByteOrder) : Except UnmarshalError (Nat × Nat) :=
  match bytes with
  | b0 :: b1 :: b2 :: b3 :: _ =>
    match bo with
    | .LittleEndian =>
      .ok (4, b0 % 256 + 256 * (b1 % 256) + 65536 * (b2 % 256) + 16777216 * (b3 % 256))
    | .BigEndian =>
      .ok (4, b3 % 256 + 256 * (b2 % 256) + 65536 * (b1 % 256) + 16777216 * (b0 % 256))
  | _ => .error .NotEnoughBytes

/-- The external `util::write_u32`: append the 4-byte encoding of `v` in the
given byte order to `buf`.  Modelled from the spec (Append those 4 bytes
back into the receive buffer). -/
def write_u32 (v : Nat) (bo : ByteOrder) (buf : List Nat) : List Nat :=
  let b0 := v % 256
  let b1 := v / 256 % 256
  let b2 := v / 65536 % 256
  let b3 := v / 16777216 % 256
  match bo with
  | .LittleEndian => buf ++ [b0, b1, b2, b3]
  | .BigEndian => buf ++ [b3, b2, b1, b0]

/-- The fixed-header data `unmarshal_header` yields: wire byte order, message
type, body length and sender serial. -/
structure Header where
  byteorder : ByteOrder
  typ : MessageType
  body_len : Nat
  serial : Nat
  deriving DecidableEq

/-- Modelled from the spec: the external `unmarshal::unmarshal_header` parses
the fixed 16-byte prefix (byte 0: endianness flag, byte 1: message type,
bytes 4-7: body length, bytes 8-11: serial), failing with `NotEnoughBytes`
when fewer than 16 bytes are available. -/
def unmarshal_header (buf : List Nat) : Except UnmarshalError (Nat × Header) :=
  if buf.length < HEADER_LEN then .error .NotEnoughBytes
  else
    match buf.getD 0 0 with
    | 108 => unmarshal_header_aux buf ByteOrder.LittleEndian
    | 66 => unmarshal_header_aux buf ByteOrder.BigEndian
    | _ => .error .InvalidByteOrder
where
  unmarshal_header_aux (buf : List Nat) (bo : ByteOrder) : Except UnmarshalError (Nat × Header) :=
    let typ :=
      match buf.getD 1 0 with
      | 1 => MessageType.Call
      | 2 => MessageType.Reply
      | 3 => MessageType.Error
      | 4 => MessageType.Signal
      | _ => MessageType.Invalid
    match parse_u32 (buf.drop 4) bo, parse_u32 (buf.drop 8) bo with
    | .ok (_, bl), .ok (_, ser) => .ok (HEADER_LEN, ⟨bo, typ, bl, ser⟩)
    | _, _ => .error .NotEnoughBytes

/-- `Conn::refill_buffer` (source lines 291-322): one `recvmsg` reading at
most `min(max_buffer_size - len, 512)` bytes, with the read timeout installed
for the duration of the call.  On success the collected control messages are
returned, the received bytes are appended to `msg_buf_in` and the previous
read timeout is restored; on a syscall error the function returns through `?`
without restoring it (EAGAIN becomes `TimedOut`). -/
def refill_buffer (max_buffer_size : Nat) (timeout : Option Nat) (conn : ConnState) :
    Except Error (List CMsg) × ConnState :=
  let bytes_to_read := max_buffer_size - conn.msg_buf_in.length
  let want := min bytes_to_read 512
  let old_timeout := conn.sock.readTimeout
  let conn1 := { conn with sock := { conn.sock with readTimeout := timeout } }
  match recvmsgM want conn1.sock.stream with
  | .error errno =>
    (if errno = EAGAIN then .error .TimedOut else .error (.NixError errno), conn1)
  | .ok ((bytes, cmsgs), stream1) =>
    let conn2 :=
      { conn1 with
        sock := { conn1.sock with stream := stream1, readTimeout := old_timeout },
        msg_buf_in := conn1.msg_buf_in ++ bytes }
    (.ok cmsgs, conn2)

/-- Fuel ample for any loop that drains the receive stream: total queued bytes
plus one step per batch plus one. -/
def streamFuel (s : List Batch) : Nat :=
  s.foldr (fun b acc => b.bytes.length + 1 + acc) 1

/-- Phase A of `get_next_message` (source lines 336-347): try
`unmarshal_header` on the buffer; on `NotEnoughBytes` refill towards
`HEADER_LEN` and retry, accumulating control messages.  Syscalls are modelled
as instantaneous, so the remaining-time computation the source performs before
each refill passes `timeout` through unchanged; time accounting is verified at
the RpcConn layer.  Fuel exhaustion cannot occur with `streamFuel`. -/
def phaseA (fuel : Nat) (timeout : Option Nat) (conn : ConnState) (acc : List CMsg) :
    Except Error (Header × List CMsg) × ConnState :=
  match fuel with
  | 0 => (.error .TimedOut, conn)
  | fuel + 1 =>
    match unmarshal_header conn.msg_buf_in with
    | .ok (_, header) => (.ok (header, acc), conn)
    | .error .NotEnoughBytes =>
      match refill_buffer HEADER_LEN timeout conn with
      | (.error e, conn1) => (.error e, conn1)
      | (.ok cm, conn1) => phaseA fuel timeout conn1 (acc ++ cm)
    | .error e => (.error (.UnmarshalError e), conn)

/-- The body-size computation of `get_next_message` (source lines 358-369).
`complete_header_size` and the padding are `usize` arithmetic, but the sum
`header.body_len + header_fields_len + 4` is performed on `u32` values and
wraps at `2^32` before the cast to `usize`. -/
def bytes_needed_calc (header_fields_len body_len : Nat) : Nat :=
  let complete_header_size := HEADER_LEN + header_fields_len + 4
  let p := 8 - complete_header_size % 8
  let padding_between_header_and_body := if p = 8 then 0 else p
  HEADER_LEN + (body_len + header_fields_len + 4) % U32 + padding_between_header_and_body

/-- Phase C of `get_next_message` (source lines 370-377): refill towards
`bytes_needed` and loop until the buffer holds exactly that many bytes,
accumulating control messages.  The source loop refills before testing, as
here.  Fuel exhaustion models the non-termination that a buffer already past
`bytes_needed` would cause. -/
def phaseC (fuel target : Nat) (timeout : Option Nat) (conn : ConnState) (acc : List CMsg) :
    Except Error (List CMsg) × ConnState :=
  match fuel with
  | 0 => (.error .TimedOut, conn)
  | fuel + 1 =>
    match refill_buffer target timeout conn with
    | (.error e, conn1) => (.error e, conn1)
    | (.ok cm, conn1) =>
      if conn1.msg_buf_in.length = target then (.ok (acc ++ cm), conn1)
      else phaseC fuel target timeout conn1 (acc ++ cm)

/-- The framing portion of `Conn::get_next_message` (source lines 336-377):
phase A, then the 4 header-fields-length bytes read with
`self.stream.read_exact` (a plain read: ancillary data arriving with those
bytes is discarded by the kernel), parsed and written back into the buffer,
then the size computation and phase C.  Returns the parsed header, the
computed `bytes_needed` and all control messages collected by `recvmsg`. -/
def frame (timeout : Option Nat) (conn : ConnState) :
    Except Error (Header × Nat × List CMsg) × ConnState :=
  match phaseA (streamFuel conn.sock.stream) timeout conn [] with
  | (.error e, c) => (.error e, c)
  | (.ok (header, cmsgs), c1) =>
    match read_exact 4 c1.sock.stream with
    | .error e => (.error e, c1)
    | .ok (lenbytes, stream1) =>
      let c2 := { c1 with sock := { c1.sock with stream := stream1 } }
      match parse_u32 lenbytes header.byteorder with
      | .error e => (.error (.UnmarshalError e), c2)
      | .ok (_, header_fields_len) =>
        let c3 := { c2 with msg_buf_in := write_u32 header_fields_len header.byteorder c2.msg_buf_in }
        let bytes_needed := bytes_needed_calc header_fields_len header.body_len
        match phaseC (streamFuel c3.sock.stream) bytes_needed timeout c3 [] with
        | (.error e, c4) => (.error e, c4)
        | (.ok cm2, c4) => (.ok (header, bytes_needed, cmsgs ++ cm2), c4)

/-- Interface of the external `unmarshal::unmarshal_next_message`: given the
parsed header, the buffer and the offset (`HEADER_LEN`), return the number of
bytes consumed and the message. -/
def Unmarshaller : Type :=
  Header → List Nat → Nat → Except UnmarshalError (Nat × Message)

/-- `Conn::get_next_message` (source lines 325-397), parametric in the
external unmarshaller: frame one message, unmarshal it from offset
`HEADER_LEN`, fail with `UnmarshalError NotAllBytesUsed` unless exactly
`bytes_needed - HEADER_LEN` bytes were consumed, clear the receive buffer, and
append the descriptors of every collected SCM_RIGHTS control message to the
message's `raw_fds` in reception order (other kinds are logged and ignored). -/
def get_next_message (unm : Unmarshaller) (timeout : Option Nat) (conn : ConnState) :
    Except Error Message × ConnState :=
  match frame timeout conn with
  | (.error e, c) => (.error e, c)
  | (.ok (header, bytes_needed, cmsgs), c) =>
    match unm header c.msg_buf_in HEADER_LEN with
    | .error e => (.error (.UnmarshalError e), c)
    | .ok (bytes_used, msg) =>
      if bytes_needed ≠ bytes_used + HEADER_LEN then
        (.error (.UnmarshalError .NotAllBytesUsed), c)
      else
        let c1 := { c with msg_buf_in := [] }
        let fds := cmsgs.foldl
          (fun acc cm => match cm with | .ScmRights l => acc ++ l | .Other => acc) []
        (.ok { msg with raw_fds := msg.raw_fds ++ fds }, c1)

/-- Modelled from the spec: a well-behaved instance of the external
unmarshaller.  It re-reads the header-fields length from the buffer at the
given offset (the source writes it back there for this purpose), and consumes
exactly `4 + header_fields_len + padding + body_len` bytes, producing a
message with the header's type and serial and the body bytes. -/
def specUnmarshal : Unmarshaller := fun header buf offset =>
  match parse_u32 (buf.drop offset) header.byteorder with
  | .error e => .error e
  | .ok (_, header_fields_len) =>
    let complete := HEADER_LEN + header_fields_len + 4
    let pad := if complete % 8 = 0 then 0 else 8 - complete % 8
    let used := 4 + header_fields_len + pad + header.body_len
    if buf.length < offset + used then .error .NotEnoughBytes
    else
      .ok (used,
        { typ := header.typ
          serial := some header.serial
          response_serial := none
          raw_fds := []
          body := (buf.drop (offset + 4 + header_fields_len + pad)).take header.body_len })

/-- Modelled from the spec: the external `marshal::marshal` serialises a
message; its output bytes are opaque to the transport (only their count is
observable through `sendmsg`). -/
def marshal (msg : Message) (bo : ByteOrder) : List Nat :=
  match bo with
  | .LittleEndian => msg.body
  | .BigEndian => msg.body.reverse

/-- One `sendmsg` syscall on the socket: consumes the next oracle outcome.
`success` accepts the whole buffer of length `len`; when the oracle is
exhausted sends succeed. -/
def sendmsgM (len : Nat) (sock : SockState) : Except Nat Nat × SockState :=
  match sock.sendOutcomes with
  | [] => (.ok len, sock)
  | .success :: rest => (.ok len, { sock with sendOutcomes := rest })
  | .fail errno :: rest => (.error errno, { sock with sendOutcomes := rest })

/-- `Conn::send_message` (source lines 400-432): clear the send buffer, stamp
the serial from the counter when absent (u32 increment), marshal with the
fixed little-endian order, install `timeout` as the socket's READ timeout,
issue one `sendmsg`, and restore the previous read timeout only after a
successful send (a failing `sendmsg` returns through `?` as `NixError`,
leaving the timeout installed).  The `assert_eq!(l, msg_buf_out.len())` always
holds because a successful modelled send writes the whole buffer. -/
def send_message (msg : Message) (timeout : Option Nat) (conn : ConnState) :
    Except Error Message × ConnState :=
  let conn := { conn with msg_buf_out := [] }
  let stamped :=
    match msg.serial with
    | none =>
      ({ msg with serial := some conn.serial_counter },
       { conn with serial_counter := (conn.serial_counter + 1) % U32 })
    | some _ => (msg, conn)
  let msg := stamped.1
  let conn := stamped.2
  let conn := { conn with msg_buf_out := marshal msg ByteOrder.LittleEndian }
  let old_timeout := conn.sock.readTimeout
  let conn := { conn with sock := { conn.sock with readTimeout := timeout } }
  match sendmsgM conn.msg_buf_out.length conn.sock with
  | (.error errno, sock1) => (.error (.NixError errno), { conn with sock := sock1 })
  | (.ok _, sock1) =>
    (.ok msg, { conn with sock := { sock1 with readTimeout := old_timeout } })

/-- A message with no attributes set; concrete inputs are built from it. -/
def blankMsg : Message :=
  { typ := .Call, serial := none, response_serial := none, raw_fds := [], body := [] }

/-- The transport state `connect_to_bus_with_byteorder` establishes (source
lines 273-282): empty buffers, serial counter 1; the socket starts with no
timeouts configured and an empty inbound stream. -/
def freshConn : ConnState :=
  { sock := { stream := [], readTimeout := none, sendTimeout := none, sendOutcomes := [] }
    byteorder := .LittleEndian
    msg_buf_in := []
    msg_buf_out := []
    serial_counter := 1 }

/-- Send a list of messages in order with `send_message`; `none` when any
send fails. -/
def sendAll (msgs : List Message) (conn : ConnState) : Option (List Message × ConnState) :=
  match msgs with
  | [] => some ([], conn)
  | m :: rest =>
    match send_message m none conn with
    | (.error _, _) => none
    | (.ok m1, conn1) =>
      match sendAll rest conn1 with
      | none => none
      | some (l, cend) => some (m1 :: l, cend)

/-- The serial stamped on the i-th message of a `sendAll` run (`none` when
the run fails or the message carried no serial). -/
def sentSerialAt (msgs : List Message) (conn : ConnState) (i : Nat) : Option Nat :=
  match sendAll msgs conn with
  | some (l, _) => (l.getD i blankMsg).serial
  | none => none

/-- The serial on the returned message and the counter after one successful
`send_message` (`none` when the send fails). -/
def sendKeeps (msg : Message) (conn : ConnState) : Option (Option Nat × Nat) :=
  match send_message msg none conn with
  | (.ok r, c1) => some (r.serial, c1.serial_counter)
  | (.error _, _) => none

/-! ## The RpcConn dispatcher

The dispatcher routes whole messages; its transport is the stream of results
that successive `Conn::get_next_message` calls yield, each tagged with the
time that call consumes (the byte-level behaviour of `get_next_message` is
verified above).  Durations and instants are `Nat`; `MState.clock` plays the
role of `time::Instant::now()`. -/

/-- Dispatcher state (`RpcConn`, source lines 27-33): signal and call queues,
the response map keyed by reply serial, the acceptance filter, plus the
modelled transport (`incoming`: cost-tagged results of successive
`get_next_message` calls; `sent`: messages passed to `conn.send_message`) and
the clock. -/
structure MState where
  signals : List Message
  calls : List Message
  responses : List (Nat × Message)
  filter : Message → Bool
  incoming : List (Nat × Except Error Message)
  sent : List Message
  clock : Nat

/-- HashMap::insert on the response map: replace any entry with the same key,
append otherwise (last write wins, as the spec notes). -/
def insertResp (k : Nat) (v : Message) (l : List (Nat × Message)) : List (Nat × Message) :=
  l.filter (fun p => p.1 ≠ k) ++ [(k, v)]

/-- HashMap::remove on the response map: return the mapped message, if any,
and the map without it. -/
def removeResp (k : Nat) (l : List (Nat × Message)) :
    Option Message × List (Nat × Message) :=
  match l.find? (fun p => p.1 = k) with
  | none => (none, l)
  | some p => (some p.2, l.filter (fun q => q.1 ≠ k))

/-- `calc_timeout_left` (source lines 465-480): with a timeout, fail with
`TimedOut` once the elapsed time reaches it, else return the remainder;
without one, return `None`. -/
def calc_timeout_left (start now : Nat) (timeout : Option Nat) :
    Except Error (Option Nat) :=
  match timeout with
  | some t => if t ≤ now - start then .error .TimedOut else .ok (some (t - (now - start)))
  | none => .ok none

/-- One `Conn::get_next_message` call as the dispatcher sees it: consume the
next cost-tagged result if its cost fits the allowed time, else time out after
the full allowance.  An empty `incoming` stream means no message arrives
within the wait. -/
def getNextMessageM (timeout : Option Nat) (st : MState) :
    Except Error Message × MState :=
  match st.incoming with
  | [] =>
    match timeout with
    | some t => (.error .TimedOut, { st with clock := st.clock + t })
    | none => (.error .TimedOut, st)
  | (cost, res) :: rest =>
    match timeout with
    | some t =>
      if t ≤ cost then (.error .TimedOut, { st with clock := st.clock + t })
      else (res, { st with incoming := rest, clock := st.clock + cost })
    | none => (res, { st with incoming := rest, clock := st.clock + cost })

/-- Modelled from the spec: `standard_messages::unknown_method` synthesises an
`UnknownMethod` error reply addressed to the rejected call's serial. -/
def unknown_method (msg : Message) : Message :=
  { typ := .Error, serial := none, response_serial := msg.serial, raw_fds := [], body := [] }

/-- `conn.send_message` as the dispatcher uses it for synthesised replies:
the message is emitted on the socket.  Serial stamping and send failures are
transport concerns outside the dispatcher claims. -/
def sendM (m : Message) (st : MState) : MState :=
  { st with sent := st.sent ++ [m] }

/-- The loop body of `RpcConn::refill` (source lines 148-193), with
`start` the loop's `start_time` and one fuel unit per iteration.  A message
passing the filter is routed by type and ends the loop; `Invalid` is always
`UnexpectedTypeReceived`; a rejected `Call` is answered with `unknown_method`
and the loop continues; other rejected messages are dropped and the loop
continues.  The `unwrap` of `response_serial` is the `none` (panic) case. -/
def refillLoop (fuel : Nat) (timeout : Option Nat) (start : Nat) (st : MState) :
    Option (Except Error Unit × MState) :=
  match fuel with
  | 0 => some (.error .TimedOut, st)
  | fuel + 1 =>
    match calc_timeout_left start st.clock timeout with
    | .error e => some (.error e, st)
    | .ok rem =>
      match getNextMessageM rem st with
      | (.error e, st1) => some (.error e, st1)
      | (.ok msg, st1) =>
        if st1.filter msg then
          match msg.typ with
          | .Call => some (.ok (), { st1 with calls := st1.calls ++ [msg] })
          | .Invalid => some (.error .UnexpectedTypeReceived, st1)
          | .Error =>
            match msg.response_serial with
            | none => none
            | some rs => some (.ok (), { st1 with responses := insertResp rs msg st1.responses })
          | .Reply =>
            match msg.response_serial with
            | none => none
            | some rs => some (.ok (), { st1 with responses := insertResp rs msg st1.responses })
          | .Signal => some (.ok (), { st1 with signals := st1.signals ++ [msg] })
        else
          match msg.typ with
          | .Call =>
            match calc_timeout_left start st1.clock timeout with
            | .error e => some (.error e, st1)
            | .ok _ => refillLoop fuel timeout start (sendM (unknown_method msg) st1)
          | .Invalid => some (.error .UnexpectedTypeReceived, st1)
          | .Error => refillLoop fuel timeout start st1
          | .Reply => refillLoop fuel timeout start st1
          | .Signal => refillLoop fuel timeout start st1

/-- `RpcConn::refill`: record the entry instant and run the loop.  Every
continuing iteration consumes one incoming event, so `incoming.length + 1`
fuel units always suffice. -/
def refillM (timeout : Option Nat) (st : MState) : Option (Except Error Unit × MState) :=
  refillLoop (st.incoming.length + 1) timeout st.clock st

/-- The loop of `RpcConn::wait_response` (source lines 94-105): take the
response if present, otherwise `refill` with the caller's original timeout
and retry. -/
def waitLoop (fuel serial : Nat) (timeout : Option Nat) (st : MState) :
    Option (Except Error Message × MState) :=
  match fuel with
  | 0 => some (.error .TimedOut, st)
  | fuel + 1 =>
    match removeResp serial st.responses with
    | (some m, resp1) => some (.ok m, { st with responses := resp1 })
    | (none, _) =>
      match refillM timeout st with
      | none => none
      | some (.error e, st1) => some (.error e, st1)
      | some (.ok _, st1) => waitLoop fuel serial timeout st1

/-- `RpcConn::wait_response`: each successful `refill` admits one message and
consumes at least one incoming event, so `incoming.length + 1` fuel units
always suffice. -/
def wait_responseM (serial : Nat) (timeout : Option Nat) (st : MState) :
    Option (Except Error Message × MState) :=
  waitLoop (st.incoming.length + 1) serial timeout st

/-! ## Concrete inputs used by witnesses and counterexamples -/

/-- The 16-byte fixed header of a little-endian Call with body length 0 and
serial 1. -/
def headerA : List Nat := [108, 1, 0, 1, 0, 0, 0, 0, 1, 0, 0, 0, 0, 0, 0, 0]

/-- The 16-byte fixed header of a little-endian Call with body length 0 and
serial 2. -/
def headerB : List Nat := [108, 1, 0, 1, 0, 0, 0, 0, 2, 0, 0, 0, 0, 0, 0, 0]

/-- Four zero bytes: an empty header-fields array length, and also the 4
padding bytes of a message whose header-fields array is empty. -/
def four0 : List Nat := [0, 0, 0, 0]

/-- The kernel batching of claim C1's scenario: the peer sends message A
(24 wire bytes, descriptors 5 and 6) and then message B (24 wire bytes,
descriptor 7); the kernel delivers each message's ancillary data together
with the 4 header-fields-length bytes. -/
def c1Conn : ConnState :=
  { freshConn with sock := { freshConn.sock with stream :=
      [⟨headerA, []⟩, ⟨four0, [.ScmRights [5, 6]]⟩, ⟨four0, []⟩,
       ⟨headerB, []⟩, ⟨four0, [.ScmRights [7]]⟩, ⟨four0, []⟩] } }

/-- A transport whose socket holds the 24 wire bytes of message A in one
batch. -/
def c5Conn : ConnState :=
  { freshConn with sock := { freshConn.sock with stream :=
      [⟨headerA ++ four0 ++ four0, []⟩] } }

/-- A misbehaving unmarshaller that consumes 0 bytes. -/
def badUnm : Unmarshaller := fun _ _ _ => .ok (0, blankMsg)

/-- The header frame on `c5Conn` yields. -/
def c5Header : Header :=
  { byteorder := .LittleEndian, typ := .Call, body_len := 0, serial := 1 }

/-- The transport state after framing one message on `c5Conn`: the stream is
drained and the buffer holds the 24 message bytes. -/
def c5FrameConn : ConnState :=
  { sock := { stream := [], readTimeout := none, sendTimeout := none, sendOutcomes := [] }
    byteorder := .LittleEndian
    msg_buf_in := [108, 1, 0, 1, 0, 0, 0, 0, 1, 0, 0, 0, 0, 0, 0, 0, 0, 0, 0, 0, 0, 0, 0, 0]
    msg_buf_out := []
    serial_counter := 1 }

/-- A transport whose next `sendmsg` fails with EAGAIN: the kernel send
buffer stays full past the intended send deadline. -/
def c6Conn : ConnState :=
  { freshConn with sock := { freshConn.sock with sendOutcomes := [.fail EAGAIN] } }

/-- An unrelated broadcast signal message. -/
def sigMsg : Message :=
  { typ := .Signal, serial := some 9, response_serial := none, raw_fds := [], body := [] }

/-- An inbound method call. -/
def callMsg : Message :=
  { typ := .Call, serial := some 7, response_serial := none, raw_fds := [], body := [] }

/-- A reply answering serial 7. -/
def replyMsg : Message :=
  { typ := .Reply, serial := some 3, response_serial := some 7, raw_fds := [], body := [] }

/-- Dispatcher state for claim C8's scenario: a caller waits for reply serial
42 with a 100-unit timeout while three unrelated signals arrive, each taking
99 units to receive. -/
def c8State : MState :=
  { signals := [], calls := [], responses := []
    filter := fun _ => true
    incoming := [(99, .ok sigMsg), (99, .ok sigMsg), (99, .ok sigMsg)]
    sent := [], clock := 0 }

/-- Dispatcher state with an accept-all filter and one pending inbound call. -/
def stA : MState :=
  { signals := [], calls := [], responses := []
    filter := fun _ => true
    incoming := [(1, .ok callMsg)]
    sent := [], clock := 0 }

/-- Dispatcher state with a reject-all filter and one pending inbound
signal. -/
def stB : MState :=
  { signals := [], calls := [], responses := []
    filter := fun _ => false
    incoming := [(2, .ok sigMsg)]
    sent := [], clock := 0 }

/-- Dispatcher state with an accept-all filter and one pending reply carrying
a response serial. -/
def c10State : MState :=
  { signals := [], calls := [], responses := []
    filter := fun _ => true
    incoming := [(1, .ok replyMsg)]
    sent := [], clock := 0 }

/-- Result component of a `wait_responseM` run. -/
def waitResultOf (o : Option (Except Error Message × MState)) : Option (Except Error Message) :=
  o.map Prod.fst

/-- Final clock of a `wait_responseM` run. -/
def waitClockOf (o : Option (Except Error Message × MState)) : Option Nat :=
  o.map fun p => p.2.clock

/-- Number of signals enqueued by a `wait_responseM` run. -/
def waitSignalsOf (o : Option (Except Error Message × MState)) : Option Nat :=
  o.map fun p => p.2.signals.length

/-- Number of incoming transport events left after a `wait_responseM` run. -/
def waitIncomingLeft (o : Option (Except Error Message × MState)) : Option Nat :=
  o.map fun p => p.2.incoming.length

/-! ## Theorems -/

/-- C1: the peer sends message A with descriptors [5, 6] and then message B
with descriptor [7]; the kernel delivers each message's SCM_RIGHTS block
together with that message's 4 header-fields-length bytes (one legal batching
of the stream).  Two successive `get_next_message` calls return A and then B,
but both with `raw_fds = []`: the 4 length bytes are read with
`stream.read_exact`, a plain read that discards ancillary data, so the
descriptors are lost instead of being attributed to their messages as the
claim requires. -/
theorem c1_descriptor_loss :
    (get_next_message specUnmarshal none c1Conn).1 =
      .ok { typ := .Call, serial := some 1, response_serial := none,
            raw_fds := [], body := [] } ∧
    (get_next_message specUnmarshal none
        (get_next_message specUnmarshal none c1Conn).2).1 =
      .ok { typ := .Call, serial := some 2, response_serial := none,
            raw_fds := [], body := [] } ∧
    ([] : List Nat) ≠ [5, 6] ∧ ([] : List Nat) ≠ [7] := by
  refine ⟨by rfl, by rfl, by decide, by decide⟩

/-- C6: `send_message` cannot time out, and it never touches the socket's
send timeout (the knob that would actually bound a blocking `sendmsg`): on
every input its result is never `TimedOut` and `sendTimeout` is unchanged; at
a concrete input whose `sendmsg` blocks past the deadline (EAGAIN), the call
returns `NixError EAGAIN` instead of `TimedOut`, having installed the timeout
as the READ timeout, contrary to the claim. -/
theorem c6_send_timeout_ineffective :
    (∀ (msg : Message) (timeout : Option Nat) (conn : ConnState),
      (match send_message msg timeout conn with
       | (.error e, _) => e ≠ Error.TimedOut
       | (.ok _, _) => True) ∧
      (send_message msg timeout conn).2.sock.sendTimeout = conn.sock.sendTimeout) ∧
    (send_message blankMsg (some 100) c6Conn).1 = .error (.NixError EAGAIN) ∧
    (send_message blankMsg (some 100) c6Conn).2.sock.readTimeout = some 100 ∧
    (send_message blankMsg (some 100) c6Conn).2.sock.sendTimeout = none := by
  refine ⟨?_, by rfl, by rfl, by rfl⟩
  intro msg timeout conn
  rcases hs : msg.serial with _ | s <;>
    rcases ho : conn.sock.sendOutcomes with _ | ⟨_ | e, rest⟩ <;>
      simp [send_message, sendmsgM, hs, ho]

/-- C7 counterexample: on a transport whose previously configured read
timeout is `none`, a `refill_buffer` with timeout 5 that fails (`recvmsg`
reports EAGAIN, surfaced as `TimedOut`) leaves the read timeout at `some 5`:
the error path does not restore the previous value, contrary to the claim. -/
theorem c7_restore_counterexample :
    freshConn.sock.readTimeout = none ∧
    (refill_buffer 16 (some 5) freshConn).1 = .error .TimedOut ∧
    (refill_buffer 16 (some 5) freshConn).2.sock.readTimeout = some 5 ∧
    (some 5 : Option Nat) ≠ none := by
  refine ⟨by rfl, by rfl, by rfl, by decide⟩

/-- C3 counterexample: for `header_fields_len = 2^32 - 8` and `body_len =
16`, the u32 sum `body_len + header_fields_len + 4` wraps, so the code
computes 32 bytes while the claim's formula gives `2^32 + 32`. -/
theorem c3_total_size_counterexample :
    bytes_needed_calc 4294967288 16 = 32 ∧
    16 + 4 + 4294967288 + (8 - (16 + 4294967288 + 4) % 8) % 8 + 16 = 4294967328 ∧
    (32 : Nat) ≠ 4294967328 := by
  refine ⟨by decide, by decide, by decide⟩

/-- C8 counterexample: `wait_response(42, 100)` on a dispatcher receiving
three unrelated 99-unit signals returns `TimedOut` only after 397 time units,
having consumed all three transport events — the third syscall is issued at
elapsed time 198, after the claimed budget `100` from entry (plus the
one-syscall slack 99) is exhausted, because each `refill` call restarts the
budget instead of receiving `d - elapsed`. -/
theorem c8_budget_counterexample :
    waitResultOf (wait_responseM 42 (some 100) c8State) = some (.error .TimedOut) ∧
    waitClockOf (wait_responseM 42 (some 100) c8State) = some 397 ∧
    waitSignalsOf (wait_responseM 42 (some 100) c8State) = some 3 ∧
    waitIncomingLeft (wait_responseM 42 (some 100) c8State) = some 0 ∧
    100 + 99 < 397 := by
  refine ⟨by rfl, by rfl, by rfl, by rfl, by decide⟩

/-- C9: whenever `get_next_message` succeeds, the receive buffer `msg_buf_in`
of the resulting transport state is empty, for every unmarshaller, timeout
and starting state. -/
theorem c9_buffer_empty :
    ∀ (unm : Unmarshaller) (timeout : Option Nat) (conn : ConnState),
      match get_next_message unm timeout conn with
      | (.ok _, conn1) => conn1.msg_buf_in = []
      | (.error _, _) => True := by
  intro unm timeout conn
  unfold get_next_message
  rcases hf : frame timeout conn with ⟨r, c⟩
  cases r with
  | error e => simp
  | ok v =>
    obtain ⟨header, bytes_needed, cmsgs⟩ := v
    rcases hu : unm header c.msg_buf_in HEADER_LEN with e | p
    · simp [hu]
    · obtain ⟨bytes_used, msg⟩ := p
      by_cases hne : bytes_needed = bytes_used + HEADER_LEN <;> simp [hu, hne]

/-- C5: if framing succeeds and the unmarshaller consumes a number of bytes
different from `bytes_needed - HEADER_LEN`, then `get_next_message` fails
with the error the source uses for a framing mismatch,
`UnmarshalError NotAllBytesUsed` (the spec's name for it is `FramingError`). -/
theorem c5_framing_error :
    ∀ (timeout : Option Nat) (conn : ConnState) (unm : Unmarshaller)
      (header : Header) (bytes_needed : Nat) (cmsgs : List CMsg) (conn1 : ConnState)
      (bytes_used : Nat) (msg : Message),
      frame timeout conn = (.ok (header, bytes_needed, cmsgs), conn1) →
      unm header conn1.msg_buf_in HEADER_LEN = .ok (bytes_used, msg) →
      bytes_needed ≠ bytes_used + HEADER_LEN →
      get_next_message unm timeout conn =
        (.error (.UnmarshalError .NotAllBytesUsed), conn1) := by
  intro timeout conn unm header bytes_needed cmsgs conn1 bytes_used msg hf hu hne
  unfold get_next_message
  rw [hf]
  simp [hu, hne]

/-- C5 witness: on a transport holding one complete 24-byte message, an
unmarshaller consuming 0 bytes (24 needed, 0 + 16 consumed) makes
`get_next_message` fail with `UnmarshalError NotAllBytesUsed`. -/
theorem c5_framing_error_witness :
    get_next_message badUnm none c5Conn =
      (.error (.UnmarshalError .NotAllBytesUsed), c5FrameConn) :=
  c5_framing_error none c5Conn badUnm c5Header 24 [] c5FrameConn 0 blankMsg rfl rfl
    (by decide)

/-- C3 (amended): whenever `4 + header_fields_len + body_len < 2^32` — so
that the u32 sum in the source does not wrap — the computed message size is
exactly `16 + 4 + header_fields_len + pad + body_len` with
`pad = (8 - (16 + header_fields_len + 4) % 8) % 8`; and whenever the
read-to-target loop (phase C) succeeds, the receive buffer holds exactly the
target number of bytes, which is what the unmarshaller is then given. -/
theorem c3_total_size_amended :
    (∀ header_fields_len body_len : Nat,
      4 + header_fields_len + body_len < U32 →
      bytes_needed_calc header_fields_len body_len =
        HEADER_LEN + 4 + header_fields_len +
          (8 - (HEADER_LEN + header_fields_len + 4) % 8) % 8 + body_len) ∧
    (∀ (fuel target : Nat) (timeout : Option Nat) (conn : ConnState) (acc : List CMsg),
      match phaseC fuel target timeout conn acc with
      | (.ok _, conn1) => conn1.msg_buf_in.length = target
      | (.error _, _) => True) := by
  constructor
  · intro header_fields_len body_len h
    have h32 : body_len + header_fields_len + 4 < U32 := by unfold U32 at h ⊢; omega
    simp only [bytes_needed_calc, HEADER_LEN]
    rw [Nat.mod_eq_of_lt h32]
    split <;> omega
  · intro fuel
    induction fuel with
    | zero => intro target timeout conn acc; simp [phaseC]
    | succ n ih =>
      intro target timeout conn acc
      unfold phaseC
      rcases hr : refill_buffer target timeout conn with ⟨res, conn1⟩
      cases res with
      | error e => simp
      | ok cm =>
        by_cases hlen : conn1.msg_buf_in.length = target
        · simp [hlen]
        · simpa [hlen] using ih target timeout conn1 (acc ++ cm)

/-- C3 witness: for an empty header-fields array and an empty body the
computed size is 24 = 16 + 4 + 0 + 4 + 0. -/
theorem c3_total_size_witness : bytes_needed_calc 0 0 = 24 := by
  have h := c3_total_size_amended.1 0 0 (by norm_num [U32])
  simpa [HEADER_LEN] using h

/-- Helper: `sentSerialAt` reads the stamped serial off a successful
`sendAll` run. -/
theorem sentSerialAt_eq (msgs : List Message) (conn : ConnState) (i : Nat)
    (l : List Message) (cend : ConnState)
    (h : sendAll msgs conn = some (l, cend)) :
    sentSerialAt msgs conn i = (l.getD i blankMsg).serial := by
  unfold sentSerialAt
  rw [h]

/-- Helper: one `send_message` of a serial-less message on a transport whose
sends succeed stamps the counter value and increments the counter modulo
2^32. -/
theorem send_message_none_serial (m : Message) (conn : ConnState)
    (hm : m.serial = none) (ho : conn.sock.sendOutcomes = []) :
    send_message m none conn =
      (.ok { m with serial := some conn.serial_counter },
       { conn with
          serial_counter := (conn.serial_counter + 1) % U32,
          msg_buf_out :=
            marshal { m with serial := some conn.serial_counter } ByteOrder.LittleEndian }) := by
  simp [send_message, sendmsgM, hm, ho]
  rw [← ho]

/-- Helper: a `sendAll` run over serial-less messages on a transport whose
sends succeed returns, and stamps the i-th message with
`(counter + i) % 2^32`. -/
theorem sendAll_spec :
    ∀ (msgs : List Message) (conn : ConnState),
      (∀ m ∈ msgs, m.serial = none) →
      conn.sock.sendOutcomes = [] →
      conn.serial_counter < U32 →
      ∃ l cend, sendAll msgs conn = some (l, cend) ∧
        l.length = msgs.length ∧
        ∀ i, i < msgs.length →
          (l.getD i blankMsg).serial = some ((conn.serial_counter + i) % U32) := by
  intro msgs
  induction msgs with
  | nil =>
    intro conn _ _ _
    exact ⟨[], conn, rfl, rfl, fun i hi => absurd hi (by simp)⟩
  | cons m rest ih =>
    intro conn hall ho hc
    have hm : m.serial = none := hall m (by simp)
    have hsend := send_message_none_serial m conn hm ho
    obtain ⟨l, cend, h1, h2, h3⟩ :=
      ih { conn with
            serial_counter := (conn.serial_counter + 1) % U32,
            msg_buf_out :=
              marshal { m with serial := some conn.serial_counter } ByteOrder.LittleEndian }
        (fun x hx => hall x (by simp [hx]))
        (by simpa using ho)
        (Nat.mod_lt _ (by norm_num [U32]))
    refine ⟨{ m with serial := some conn.serial_counter } :: l, cend, ?_, by simp [h2], ?_⟩
    · simp [sendAll, hsend, h1]
    · intro i hi
      cases i with
      | zero =>
        simp [List.getD, Nat.mod_eq_of_lt hc]
      | succ j =>
        have hj := h3 j (by simpa using Nat.lt_of_succ_lt_succ hi)
        simp only [List.getD_cons_succ] at hj ⊢
        rw [hj]
        congr 1
        unfold U32
        omega

/-- C4 (amended): starting from a fresh connection, a sequence of fewer than
2^32 `send_message` calls on messages with no preset serial stamps the
serials 1, 2, 3, … in call order (the counter is a u32 and wraps after 2^32
stamps); and a message whose serial is already set keeps it, with the counter
not incremented. -/
theorem c4_serial_amended :
    (∀ (msgs : List Message) (i : Nat),
      (∀ m ∈ msgs, m.serial = none) → msgs.length < U32 → i < msgs.length →
      sentSerialAt msgs freshConn i = some (i + 1)) ∧
    (∀ (msg : Message) (s : Nat) (conn : ConnState),
      msg.serial = some s → conn.sock.sendOutcomes = [] →
      sendKeeps msg conn = some (some s, conn.serial_counter)) := by
  constructor
  · intro msgs i hall hlen hi
    obtain ⟨l, cend, h1, h2, h3⟩ :=
      sendAll_spec msgs freshConn hall rfl (by norm_num [U32, freshConn])
    have hs := h3 i hi
    simp only [sentSerialAt, h1]
    rw [hs]
    congr 1
    have hfresh : freshConn.serial_counter = 1 := rfl
    rw [hfresh]
    unfold U32 at hlen ⊢
    omega
  · intro msg s conn hs ho
    simp [sendKeeps, send_message, sendmsgM, hs, ho]

/-- C4 witness: two serial-less sends on a fresh connection stamp serials 1
and 2 (index 1 yields serial 2); a message with preset serial 42 keeps it
and the counter stays 1. -/
theorem c4_serial_witness :
    sentSerialAt [blankMsg, blankMsg] freshConn 1 = some 2 ∧
    sendKeeps { blankMsg with serial := some 42 } freshConn = some (some 42, 1) :=
  ⟨c4_serial_amended.1 [blankMsg, blankMsg] 1 (by decide) (by norm_num [U32])
      (by norm_num),
   c4_serial_amended.2 { blankMsg with serial := some 42 } 42 freshConn rfl rfl⟩

/-- C4 counterexample: after exactly 2^32 serial-less sends on a fresh
connection, the last message (index 2^32 - 1) is stamped with serial 0, not
with 2^32 as the unbounded reading of the claim demands: the u32 counter
wraps. -/
theorem c4_serial_counterexample :
    sentSerialAt (List.replicate U32 blankMsg) freshConn (U32 - 1) = some 0 ∧
    (0 : Nat) ≠ U32 := by
  constructor
  · obtain ⟨l, cend, h1, h2, h3⟩ :=
      sendAll_spec (List.replicate U32 blankMsg) freshConn
        (fun m hm => by rw [List.eq_of_mem_replicate hm]; rfl)
        rfl (by norm_num [U32, freshConn])
    have hs := h3 (U32 - 1) (by rw [List.length_replicate]; unfold U32; omega)
    rw [sentSerialAt_eq _ _ _ _ _ h1, hs]
    have h1c : freshConn.serial_counter = 1 := rfl
    rw [h1c]
    unfold U32
    norm_num
  · norm_num [U32]

/-- C7 (amended): `refill_buffer` and `send_message` restore the previously
configured read timeout on every successful exit; on a syscall-error exit the
timeout they installed for the call remains configured (the early return via
the error operator skips the restore). -/
theorem c7_restore_amended :
    ∀ (max_buffer_size : Nat) (timeout : Option Nat) (conn : ConnState) (msg : Message),
      (match refill_buffer max_buffer_size timeout conn with
       | (.ok _, c1) => c1.sock.readTimeout = conn.sock.readTimeout
       | (.error _, c1) => c1.sock.readTimeout = timeout) ∧
      (match send_message msg timeout conn with
       | (.ok _, c1) => c1.sock.readTimeout = conn.sock.readTimeout
       | (.error _, c1) => c1.sock.readTimeout = timeout) := by
  intro max_buffer_size timeout conn msg
  constructor
  · simp only [refill_buffer]
    rcases hr : recvmsgM (min (max_buffer_size - conn.msg_buf_in.length) 512)
        conn.sock.stream with e | v
    · by_cases he : e = EAGAIN <;> simp [he]
    · obtain ⟨⟨bytes, cmsgs⟩, stream1⟩ := v
      simp
  · rcases hs : msg.serial with _ | s <;>
      rcases ho : conn.sock.sendOutcomes with _ | ⟨_ | e, rest⟩ <;>
        simp [send_message, sendmsgM, hs, ho]

/-- Helper: within one `refill` invocation with timeout `d`, the clock never
advances past `start + d`: every iteration first checks the remaining budget
and each transport call is bounded by that remainder. -/
theorem refillLoop_clock_le :
    ∀ (fuel d start : Nat) (st : MState), st.clock ≤ start + d →
      match refillLoop fuel (some d) start st with
      | some (_, st1) => st1.clock ≤ start + d
      | none => True := by
  intro fuel
  induction fuel with
  | zero =>
    intro d start st hst
    simpa [refillLoop] using hst
  | succ n ih =>
    intro d start st hst
    simp only [refillLoop, calc_timeout_left]
    by_cases hel : d ≤ st.clock - start
    · simpa [hel] using hst
    · rcases hin : st.incoming with _ | ⟨⟨cost, res⟩, rest⟩
      · simp only [getNextMessageM, hin, hel, if_false]
        omega
      · simp only [getNextMessageM, hin, hel, if_false]
        by_cases hc : d - (st.clock - start) ≤ cost
        · simp only [hc, if_true]
          omega
        · simp only [hc, if_false]
          rcases res with e | m
          · simp only []
            omega
          · simp only []
            by_cases hfil : st.filter m = true
            · simp only [hfil, if_true]
              rcases htyp : m.typ with _ | _ | _ | _ | _ <;> simp only [htyp] <;>
                try omega
              · rcases hresp : m.response_serial with _ | rs
                · simp only [hresp]
                · simp only [hresp]
                  omega
              · rcases hresp : m.response_serial with _ | rs
                · simp only [hresp]
                · simp only [hresp]
                  omega
            · simp only [hfil, Bool.false_eq_true, if_false]
              rcases htyp : m.typ with _ | _ | _ | _ | _ <;> simp only [htyp] <;>
                try omega
              · exact ih d start { st with incoming := rest, clock := st.clock + cost }
                  (by show st.clock + cost ≤ start + d; omega)
              · exact ih d start { st with incoming := rest, clock := st.clock + cost }
                  (by show st.clock + cost ≤ start + d; omega)
              · by_cases hel2 : d ≤ st.clock + cost - start
                · simp only [hel2, if_true]
                  omega
                · simp only [hel2, if_false]
                  exact ih d start
                    (sendM (unknown_method m) { st with incoming := rest, clock := st.clock + cost })
                    (by show st.clock + cost ≤ start + d; omega)
              · exact ih d start { st with incoming := rest, clock := st.clock + cost }
                  (by show st.clock + cost ≤ start + d; omega)

/-- C8 (amended): a single `refill` invocation with timeout `d` spends at
most `d` time units: inside one `refill` every transport call receives the
remaining budget `d - elapsed` measured from that `refill`'s entry.  (Each
`refill` called from a `wait_*` loop, however, receives the caller's full
original timeout again, as the C8 counterexample shows.) -/
theorem c8_refill_budget_amended :
    ∀ (d : Nat) (st : MState),
      match refillM (some d) st with
      | some (_, st1) => st1.clock - st.clock ≤ d
      | none => True := by
  intro d st
  have hle := refillLoop_clock_le (st.incoming.length + 1) d st.clock st (by omega)
  unfold refillM
  rcases h : refillLoop (st.incoming.length + 1) (some d) st.clock st with _ | ⟨r, st1⟩
  · trivial
  · rw [h] at hle
    simp only [] at hle ⊢
    omega

/-- Helper: with no timeout, `calc_timeout_left` always succeeds, so the
refill loop's behaviour does not depend on its recorded start instant. -/
theorem refillLoop_start_irrel :
    ∀ (fuel s1 s2 : Nat) (st : MState),
      refillLoop fuel none s1 st = refillLoop fuel none s2 st := by
  intro fuel
  induction fuel with
  | zero => intro s1 s2 st; rfl
  | succ n ih =>
    intro s1 s2 st
    simp only [refillLoop, calc_timeout_left]
    rcases hin : st.incoming with _ | ⟨⟨cost, res⟩, rest⟩
    · simp only [getNextMessageM, hin]
    · simp only [getNextMessageM, hin]
      rcases res with e | m
      · rfl
      · by_cases hfil : st.filter m = true
        · simp only [hfil, if_true]
        · simp only [hfil, Bool.false_eq_true, if_false]
          rcases htyp : m.typ with _ | _ | _ | _ | _ <;> simp only [htyp]
          · exact ih s1 s2 _
          · exact ih s1 s2 _
          · exact ih s1 s2 _
          · exact ih s1 s2 _

/-- C2: for the message at the head of the transport stream inside `refill`:
if the filter accepts it, it is routed by type (Call appended to the calls
queue, Signal to the signals queue, Reply or Error inserted into the
responses map under its response serial) and `refill` returns with exactly
that one message admitted; `Invalid` yields `UnexpectedTypeReceived` whether
or not the filter accepts it; a rejected Call is answered with the
synthesised `unknown_method` error and the loop continues on the remaining
stream; a rejected Reply, Error or Signal is dropped and the loop
continues. -/
theorem c2_refill_routing :
    ∀ (st : MState) (cost : Nat) (msg : Message)
      (rest : List (Nat × Except Error Message)),
      st.incoming = (cost, .ok msg) :: rest →
      ((st.filter msg = true → msg.typ = .Call →
        refillM none st =
          some (.ok (),
            { st with incoming := rest, clock := st.clock + cost, calls := st.calls ++ [msg] })) ∧
       (st.filter msg = true → msg.typ = .Signal →
        refillM none st =
          some (.ok (),
            { st with incoming := rest, clock := st.clock + cost,
                      signals := st.signals ++ [msg] })) ∧
       (∀ rs, st.filter msg = true → msg.typ = .Reply ∨ msg.typ = .Error →
        msg.response_serial = some rs →
        refillM none st =
          some (.ok (),
            { st with incoming := rest, clock := st.clock + cost,
                      responses := insertResp rs msg st.responses })) ∧
       (msg.typ = .Invalid →
        refillM none st =
          some (.error .UnexpectedTypeReceived,
                { st with incoming := rest, clock := st.clock + cost })) ∧
       (st.filter msg = false → msg.typ = .Call →
        refillM none st =
          refillM none (sendM (unknown_method msg)
            { st with incoming := rest, clock := st.clock + cost })) ∧
       (st.filter msg = false →
        msg.typ = .Reply ∨ msg.typ = .Error ∨ msg.typ = .Signal →
        refillM none st =
          refillM none { st with incoming := rest, clock := st.clock + cost })) := by
  intro st cost msg rest hin
  obtain ⟨sg, cl, rsp, fl, inc, snt, ck⟩ := st
  simp only [] at hin
  subst hin
  refine ⟨?_, ?_, ?_, ?_, ?_, ?_⟩
  · intro hfil htyp
    replace hfil : fl msg = true := hfil
    simp only [refillM, List.length_cons, refillLoop, calc_timeout_left, getNextMessageM,
      hfil, if_true, htyp]
  · intro hfil htyp
    replace hfil : fl msg = true := hfil
    simp only [refillM, List.length_cons, refillLoop, calc_timeout_left, getNextMessageM,
      hfil, if_true, htyp]
  · intro rs hfil htyp hresp
    replace hfil : fl msg = true := hfil
    rcases htyp with htyp | htyp <;>
      simp only [refillM, List.length_cons, refillLoop, calc_timeout_left, getNextMessageM,
        hfil, if_true, htyp, hresp]
  · intro htyp
    by_cases hfil : fl msg = true <;>
      simp only [refillM, List.length_cons, refillLoop, calc_timeout_left, getNextMessageM,
        hfil, if_true, Bool.false_eq_true, if_false, htyp]
  · intro hfil htyp
    replace hfil : fl msg = false := hfil
    show refillM none ⟨sg, cl, rsp, fl, (cost, Except.ok msg) :: rest, snt, ck⟩ =
      refillLoop (rest.length + 1) none (ck + cost)
        (sendM (unknown_method msg) ⟨sg, cl, rsp, fl, rest, snt, ck + cost⟩)
    rw [refillLoop_start_irrel (rest.length + 1) (ck + cost) ck]
    simp only [refillM, List.length_cons, refillLoop, calc_timeout_left, getNextMessageM,
      hfil, Bool.false_eq_true, if_false, htyp]
  · intro hfil htyp
    replace hfil : fl msg = false := hfil
    show refillM none ⟨sg, cl, rsp, fl, (cost, Except.ok msg) :: rest, snt, ck⟩ =
      refillLoop (rest.length + 1) none (ck + cost)
        ⟨sg, cl, rsp, fl, rest, snt, ck + cost⟩
    rw [refillLoop_start_irrel (rest.length + 1) (ck + cost) ck]
    rcases htyp with htyp | htyp | htyp <;>
      simp only [refillM, List.length_cons, refillLoop, calc_timeout_left, getNextMessageM,
        hfil, Bool.false_eq_true, if_false, htyp]

/-- C2 witness: with an accept-all filter, a pending Call is admitted into
the calls queue and `refill` returns; with a reject-all filter, a pending
Signal is dropped and the loop continues on the emptied stream. -/
theorem c2_refill_routing_witness :
    refillM none stA =
      some (.ok (),
        { stA with incoming := [], clock := stA.clock + 1, calls := stA.calls ++ [callMsg] }) ∧
    refillM none stB =
      refillM none { stB with incoming := [], clock := stB.clock + 2 } :=
  ⟨(c2_refill_routing stA 1 callMsg [] rfl).1 rfl rfl,
   (c2_refill_routing stB 2 sigMsg [] rfl).2.2.2.2.2 rfl (Or.inr (Or.inr rfl))⟩

/-- Helper: a successful `getNextMessageM` consumed the head of the incoming
stream. -/
theorem getNextMessageM_ok_incoming :
    ∀ (rem : Option Nat) (st : MState) (m : Message) (st1 : MState),
      getNextMessageM rem st = (.ok m, st1) →
      ∃ cost rest, st.incoming = (cost, Except.ok m) :: rest ∧
        st1.incoming = rest ∧ st1.filter = st.filter := by
  intro rem st m st1 h
  rcases hin : st.incoming with _ | ⟨⟨cost, res⟩, rest⟩ <;>
    simp only [getNextMessageM, hin] at h
  · rcases rem with _ | t <;> simp at h
  · rcases rem with _ | t
    · have h1 := congrArg Prod.fst h
      have h2 := congrArg Prod.snd h
      simp only [] at h1 h2
      subst h1
      exact ⟨cost, rest, rfl, by rw [← h2], by rw [← h2]⟩
    · simp only [] at h
      by_cases hct : t ≤ cost
      · rw [if_pos hct] at h
        simp at h
      · rw [if_neg hct] at h
        have h1 := congrArg Prod.fst h
        have h2 := congrArg Prod.snd h
        simp only [] at h1 h2
        subst h1
        exact ⟨cost, rest, rfl, by rw [← h2], by rw [← h2]⟩

/-- Helper: the refill loop never reaches the `unwrap` panic when every
inbound Reply and Error carries a response serial. -/
theorem refillLoop_no_panic :
    ∀ (fuel : Nat) (timeout : Option Nat) (start : Nat) (st : MState),
      (∀ p ∈ st.incoming,
        match p.2 with
        | .ok m => (m.typ = .Reply ∨ m.typ = .Error) → m.response_serial ≠ none
        | .error _ => True) →
      refillLoop fuel timeout start st ≠ none := by
  intro fuel
  induction fuel with
  | zero => intro timeout start st _; simp [refillLoop]
  | succ n ih =>
    intro timeout start st hinv
    simp only [refillLoop]
    rcases hcalc : calc_timeout_left start st.clock timeout with e | rem
    · simp
    · simp only []
      rcases hg : getNextMessageM rem st with ⟨r, st1⟩
      rcases r with e | m
      · simp
      · obtain ⟨cost, rest, hin, hst1, hfileq⟩ := getNextMessageM_ok_incoming rem st m st1 hg
        have hhead := hinv (cost, Except.ok m) (by rw [hin]; exact List.mem_cons_self _ _)
        have htail : ∀ p ∈ st1.incoming,
            match p.2 with
            | .ok m => (m.typ = .Reply ∨ m.typ = .Error) → m.response_serial ≠ none
            | .error _ => True := by
          intro p hp
          rw [hst1] at hp
          exact hinv p (by rw [hin]; exact List.mem_cons_of_mem _ hp)
        by_cases hfil : st1.filter m = true
        · simp only [hfil, if_true]
          rcases htyp : m.typ with _ | _ | _ | _ | _ <;> simp only [htyp]
          · simp
          · rcases hresp : m.response_serial with _ | rs
            · exact absurd hresp (hhead (Or.inr htyp))
            · simp [hresp]
          · simp
          · rcases hresp : m.response_serial with _ | rs
            · exact absurd hresp (hhead (Or.inl htyp))
            · simp [hresp]
          · simp
        · simp only [hfil, Bool.false_eq_true, if_false]
          rcases htyp : m.typ with _ | _ | _ | _ | _ <;> simp only [htyp]
          · exact ih timeout start st1 htail
          · exact ih timeout start st1 htail
          · rcases hc2 : calc_timeout_left start st1.clock timeout with e | rem2 <;>
              simp only [hc2]
            · simp
            · exact ih timeout start (sendM (unknown_method m) st1) htail
          · exact ih timeout start st1 htail
          · simp

/-- C10: if every inbound Reply and Error carries a response serial, `refill`
never panics: the `unwrap` of `response_serial` (the `none` outcome of the
model) is unreachable. -/
theorem c10_no_unwrap_panic :
    ∀ (timeout : Option Nat) (st : MState),
      (∀ p ∈ st.incoming,
        match p.2 with
        | .ok m => (m.typ = .Reply ∨ m.typ = .Error) → m.response_serial ≠ none
        | .error _ => True) →
      refillM timeout st ≠ none :=
  fun timeout st h => refillLoop_no_panic (st.incoming.length + 1) timeout st.clock st h

/-- C10 witness: on a dispatcher whose stream holds one Reply carrying
response serial 7, `refill` does not panic. -/
theorem c10_no_unwrap_panic_witness : refillM none c10State ≠ none :=
  c10_no_unwrap_panic none c10State (by
    intro p hp
    have hp1 : p = (1, Except.ok replyMsg) := by simpa [c10State] using hp
    subst hp1
    simp [replyMsg])

end Rustbus
